import Mathlib

/-!
Shallow embedding of the option-translation and command-dispatch utilities of
an Nx build-orchestration plugin for the cargo CLI.  The source file defines
`parseCargoArgs`, `runCargo`, `getCargoCommandFromExecutor`,
`wrapWithCargoWatch` and `updateWorkspaceMembers`; the definitions below
translate them directly, modelling JavaScript string truthiness explicitly and
the process / file-system boundaries as explicit events and function
parameters.
-/

/-- JavaScript truthiness of an optional string field: `undefined` and the
empty string are falsy, every other string is truthy. -/
def jsTruthy : Option String → Bool
  | none => false
  | some s => s ≠ ""

/-- The string value of an optional field, defaulting to the empty string
(only ever read under a `jsTruthy` guard). -/
def strVal : Option String → String
  | none => ""
  | some s => s

/-- Model of JavaScript `s.startsWith('+')`. -/
def plusPrefixed (s : String) : Bool :=
  match s.data with
  | [] => false
  | c :: _ => c = '+'

/-- Model of JavaScript `s.replace(/^\+/, '')`: drop one leading `+`. -/
def stripPlus (s : String) : String :=
  match s.data with
  | [] => s
  | c :: cs => if c = '+' then String.mk cs else s

/-- The recognized option fields of the `CargoOptions` record
(`FeatureSelection & CompilationOptions & OutputOptions & DisplayOptions &
ManifestOptions`, all fields optional). -/
structure CargoOptions where
  toolchain : Option String := none
  features : Option String := none
  noDefaultFeatures : Bool := false
  target : Option String := none
  release : Bool := false
  targetDir : Option String := none
  outDir : Option String := none
  verbose : Bool := false
  veryVerbose : Bool := false
  quiet : Bool := false
  messageFormat : Option String := none
  locked : Bool := false
  frozen : Bool := false
  offline : Bool := false
deriving DecidableEq, Repr

/-- The slice of an Nx project configuration read by `parseCargoArgs`. -/
structure ProjectConfiguration where
  projectType : Option String := none
deriving DecidableEq, Repr

/-- The slice of the Nx workspace configuration read by `parseCargoArgs`:
the map from project names to project configurations. -/
structure WorkspaceConfig where
  projects : List (String × ProjectConfiguration) := []
deriving DecidableEq, Repr

/-- The slice of the Nx `ExecutorContext` read by the utilities. -/
structure ExecutorContext where
  projectName : Option String := none
  targetName : Option String := none
  workspace : WorkspaceConfig := {}
  root : String := ""
deriving DecidableEq, Repr

/-- The observable outcome of `parseCargoArgs`: the returned argument vector
together with the warning messages printed to the console during the call. -/
structure ParseResult where
  args : List String
  warnings : List String
deriving DecidableEq, Repr

/-- Tokens contributed by `if (opts.toolchain) args.push(`+${opts.toolchain}`)`. -/
def toolchainSeg (opts : CargoOptions) : List String :=
  if jsTruthy opts.toolchain then ["+" ++ strVal opts.toolchain] else []

/-- The project-selection flag: `--bin` on the build/application branch,
`-p` otherwise. -/
def selectionFlag (isBin : Bool) : String :=
  if isBin then "--bin" else "-p"

/-- Tokens contributed by the `opts.features` conditional. -/
def featureSeg (opts : CargoOptions) : List String :=
  if jsTruthy opts.features then
    if opts.features = some "all" then ["--all-features"]
    else ["--features", strVal opts.features]
  else []

/-- Tokens contributed by the `noDefaultFeatures`, `target`, `release` and
`targetDir` conditionals (in source order, before the `outDir` block). -/
def compileSeg (opts : CargoOptions) : List String :=
  (if opts.noDefaultFeatures then ["--no-default-features"] else []) ++
  (if jsTruthy opts.target then ["--target", strVal opts.target] else []) ++
  (if opts.release then ["--release"] else []) ++
  (if jsTruthy opts.targetDir then ["--target-dir", strVal opts.targetDir] else [])

/-- The console warning printed when `outDir` overrides an explicit
non-nightly toolchain (the chalk label is presentation only and omitted). -/
def outDirWarning (original : String) : String :=
  "'outDir' option can only be used with 'nightly' toolchain, " ++
  "but toolchain '" ++ original ++ "' was already specified. " ++
  "Overriding '" ++ original ++ "' => 'nightly'."

/-- The `opts.outDir` block: acts on the whole argument vector accumulated so
far (`args[0]` inspection, in-place head replacement or `unshift`), returns
the updated vector and the warnings printed. -/
def outDirStep (opts : CargoOptions) (args : List String) : List String × List String :=
  if jsTruthy opts.outDir then
    let zArgs := ["-Z", "unstable-options", "--out-dir", strVal opts.outDir]
    let head := args.headD ""
    if head = "+nightly" then (args ++ zArgs, [])
    else if plusPrefixed head then
      (("+nightly" :: args.tail) ++ zArgs, [outDirWarning (stripPlus head)])
    else (("+nightly" :: args) ++ zArgs, [])
  else (args, [])

/-- Tokens contributed by the display / manifest conditionals after the
`outDir` block (source order: `-v`, `-vv`, `-q`, `--message-format`,
`--locked`, `--frozen`, `--offline`). -/
def displaySeg (opts : CargoOptions) : List String :=
  (if opts.verbose then ["-v"] else []) ++
  (if opts.veryVerbose then ["-vv"] else []) ++
  (if opts.quiet then ["-q"] else []) ++
  (if jsTruthy opts.messageFormat then ["--message-format", strVal opts.messageFormat] else []) ++
  (if opts.locked then ["--locked"] else []) ++
  (if opts.frozen then ["--frozen"] else []) ++
  (if opts.offline then ["--offline"] else [])

/-- Evaluation of the branch condition
`ctx.targetName === 'build' && ctx.workspace.projects[ctx.projectName].projectType === 'application'`.
The `&&` short-circuits, so the project lookup (which throws a `TypeError`
when the project is absent) only happens when the target is `build`. -/
def resolveBin (ctx : ExecutorContext) : Except String Bool :=
  if ctx.targetName = some "build" then
    match List.lookup (strVal ctx.projectName) ctx.workspace.projects with
    | none => Except.error "TypeError: cannot read projectType of undefined"
    | some cfg => Except.ok (decide (cfg.projectType = some "application"))
  else Except.ok false

/-- `parseCargoArgs(opts, ctx)`: translates the options record into the cargo
argument vector.  A missing or empty `ctx.projectName` throws
(`Except.error`); the toolchain token pushed before the throw is part of a
local array that is discarded by the throw, so the error branch carries no
tokens.  On success the result also records the warnings printed. -/
def parseCargoArgs (opts : CargoOptions) (ctx : ExecutorContext) : Except String ParseResult :=
  if jsTruthy ctx.projectName then
    match resolveBin ctx with
    | Except.error e => Except.error e
    | Except.ok isBin =>
      let base := toolchainSeg opts ++
        selectionFlag isBin :: strVal ctx.projectName ::
          (featureSeg opts ++ compileSeg opts)
      let step := outDirStep opts base
      Except.ok ⟨step.1 ++ displaySeg opts, step.2⟩
  else Except.error "Expected project name to be non-null"

/-- The terminating event of the child process spawned by `runCargo`: either
the spawn itself failed (`error` event: binary not found, permission denied)
or the process closed.  Node reports the exit code on `close`; the code is
`null` (here `none`) exactly when the process was terminated by a signal. -/
inductive ProcessEvent where
  | spawnError (msg : String)
  | close (code : Option Int)
deriving DecidableEq, Repr

/-- Settlement of the promise returned by `runCargo`.  The two rejection
constructors keep the provenance distinct: `rejectedSpawn` carries the spawn
error (no exit code), `rejectedExit` the error built from the exit code. -/
inductive RunResult where
  | resolved
  | rejectedSpawn (msg : String)
  | rejectedExit (code : Int) (msg : String)
deriving DecidableEq, Repr

/-- `runCargo`: the `error` handler rejects with the spawn error; the `close`
handler runs `if (code) reject(new Error(...)); else resolve()`, where the
JavaScript condition is truthy exactly for a non-zero, non-null code. -/
def runCargo : ProcessEvent → RunResult
  | ProcessEvent.spawnError msg => RunResult.rejectedSpawn msg
  | ProcessEvent.close code =>
    match code with
    | none => RunResult.resolved
    | some c =>
      if c ≠ 0 then
        RunResult.rejectedExit c ("Cargo failed with exit code " ++ toString c)
      else RunResult.resolved

/-- Model of JavaScript `String.prototype.split(sep)` for a one-character
separator, on the character list of the string; the result is always
non-empty (`"".split(':')` is `[""]`). -/
def splitOnChar (sep : Char) : List Char → List (List Char)
  | [] => [[]]
  | c :: cs =>
    let r := splitOnChar sep cs
    if c = sep then [] :: r
    else
      match r with
      | [] => [[c]]
      | h :: t => (c :: h) :: t

/-- `executor.split(':').at(-1)`: the substring after the last colon. -/
def lastSegmentStr (e : String) : String :=
  String.mk ((splitOnChar ':' e.data).getLastD [])

/-- `getCargoCommandFromExecutor`: maps an executor identifier to the cargo
subcommand tokens via the substring after the last `:`. -/
def getCargoCommandFromExecutor (executor : String) : List String :=
  let target := lastSegmentStr executor
  if target = "build" then ["build"]
  else if target = "test" then ["test"]
  else if target = "lint" then ["clippy"]
  else if target = "run" then ["run"]
  else if target = "nextest" then ["nextest", "run"]
  else []

/-- `wrapWithCargoWatch`: wraps an assembled command for cargo-watch. -/
def wrapWithCargoWatch (command : List String) : List String :=
  let wrappedCommand := "\"" ++ String.intercalate " " ("cargo" :: command) ++ "\""
  ["watch", "-cqs", wrappedCommand]

/-- The parsed shape of the workspace manifest as read by
`updateWorkspaceMembers`: the `workspace` table may lack a `members` array;
`extra` stands for all other keys of the table, preserved untouched. -/
structure WorkspaceTable where
  members : Option (List String) := none
  extra : List (String × String) := []
deriving DecidableEq, Repr

/-- The parsed manifest document.  `workspace` is optional because the
document need not contain the table (accessing `members` then throws);
`extra` stands for all other top-level content, preserved untouched. -/
structure CargoToml where
  workspace : Option WorkspaceTable := none
  extra : List (String × String) := []
deriving DecidableEq, Repr

/-- The in-memory mutation step of `updateWorkspaceMembers`:
`if (existingToml.workspace.members) existingToml.workspace.members.push(root)`.
Reading `members` of an absent `workspace` table throws a `TypeError`; an
absent `members` array is falsy, so nothing is pushed. -/
def updateWorkspaceMembersDoc (doc : CargoToml) (projectRoot : String) :
    Except String CargoToml :=
  match doc.workspace with
  | none => Except.error "TypeError: cannot read members of undefined"
  | some w =>
    match w.members with
    | some ms =>
      Except.ok { doc with workspace := some { w with members := some (ms ++ [projectRoot]) } }
    | none => Except.ok doc

/-- `updateWorkspaceMembers`: reads the manifest, parses it, runs the
mutation step, re-serializes and writes the document back.  The external
TOML parser and serializer are parameters; the result is the content written
back to the manifest file (or the thrown error). -/
def updateWorkspaceMembers (parseToml : String → CargoToml)
    (stringifyToml : CargoToml → String) (content : String)
    (projectRoot : String) : Except String String :=
  match updateWorkspaceMembersDoc (parseToml content) projectRoot with
  | Except.error e => Except.error e
  | Except.ok doc => Except.ok (stringifyToml doc)

/-! ### Basic facts about the embedding -/

lemma plusPrefixed_plus_append (s : String) : plusPrefixed ("+" ++ s) = true := by
  unfold plusPrefixed
  rw [String.data_append]
  rfl

lemma strVal_some {s : String} : strVal (some s) = s := rfl

lemma toolchainSeg_of_falsy {opts : CargoOptions} (h : jsTruthy opts.toolchain = false) :
    toolchainSeg opts = [] := by
  unfold toolchainSeg
  rw [h]
  rfl

/-- Structural form of a successful `parseCargoArgs` call. -/
lemma parseCargoArgs_ok {opts : CargoOptions} {ctx : ExecutorContext} {r : ParseResult}
    (hr : parseCargoArgs opts ctx = Except.ok r) :
    jsTruthy ctx.projectName = true ∧ ∃ isBin, resolveBin ctx = Except.ok isBin ∧
      r.args = (outDirStep opts (toolchainSeg opts ++
        selectionFlag isBin :: strVal ctx.projectName ::
          (featureSeg opts ++ compileSeg opts))).1 ++ displaySeg opts ∧
      r.warnings = (outDirStep opts (toolchainSeg opts ++
        selectionFlag isBin :: strVal ctx.projectName ::
          (featureSeg opts ++ compileSeg opts))).2 := by
  unfold parseCargoArgs at hr
  split at hr
  · refine ⟨by assumption, ?_⟩
    cases h : resolveBin ctx with
    | error e => rw [h] at hr; simp at hr
    | ok isBin =>
      rw [h] at hr
      simp only [Except.ok.injEq] at hr
      exact ⟨isBin, rfl, by rw [← hr], by rw [← hr]⟩
  · simp at hr

/-- When `outDir` is falsy the block is skipped entirely. -/
lemma outDirStep_falsy {opts : CargoOptions} (h : jsTruthy opts.outDir = false)
    (args : List String) : outDirStep opts args = (args, []) := by
  unfold outDirStep
  rw [h]
  rfl

/-- When `outDir` is truthy and the accumulated vector starts with a token
that is neither `+nightly` nor `+`-prefixed, `+nightly` is unshifted. -/
lemma outDirStep_unshift {opts : CargoOptions} (h : jsTruthy opts.outDir = true)
    (x : String) (l : List String) (hx1 : x ≠ "+nightly") (hx2 : plusPrefixed x = false) :
    outDirStep opts (x :: l) =
      (("+nightly" :: x :: l) ++ ["-Z", "unstable-options", "--out-dir", strVal opts.outDir],
       []) := by
  unfold outDirStep
  rw [h]
  simp only [List.headD_cons, if_pos rfl, if_neg hx1, hx2]
  rfl

/-- When `outDir` is truthy and the accumulated vector starts with a
`+`-prefixed token other than `+nightly`, the head is replaced and the
override warning is printed. -/
lemma outDirStep_replace {opts : CargoOptions} (h : jsTruthy opts.outDir = true)
    (x : String) (l : List String) (hx1 : x ≠ "+nightly") (hx2 : plusPrefixed x = true) :
    outDirStep opts (x :: l) =
      (("+nightly" :: l) ++ ["-Z", "unstable-options", "--out-dir", strVal opts.outDir],
       [outDirWarning (stripPlus x)]) := by
  unfold outDirStep
  rw [h]
  simp only [List.headD_cons, if_pos rfl, if_neg hx1, hx2, if_true, List.tail_cons]

/-- When `outDir` is truthy and the accumulated vector already starts with
`+nightly`, only the unstable-options tokens are appended. -/
lemma outDirStep_nightly {opts : CargoOptions} (h : jsTruthy opts.outDir = true)
    (l : List String) :
    outDirStep opts ("+nightly" :: l) =
      (("+nightly" :: l) ++ ["-Z", "unstable-options", "--out-dir", strVal opts.outDir],
       []) := by
  unfold outDirStep
  rw [h]
  simp

/-- The selection flag is never `+`-prefixed. -/
lemma plusPrefixed_selectionFlag (isBin : Bool) : plusPrefixed (selectionFlag isBin) = false := by
  cases isBin <;> decide

/-- The selection flag is never `+nightly`. -/
lemma selectionFlag_ne_nightly (isBin : Bool) : selectionFlag isBin ≠ "+nightly" := by
  cases isBin <;> decide

/-- Token-wise predicates over the feature segment. -/
lemma all_featureSeg (opts : CargoOptions) (p : String → Bool)
    (h1 : p "--all-features" = true) (h2 : p "--features" = true)
    (h3 : p (strVal opts.features) = true) : (featureSeg opts).all p = true := by
  unfold featureSeg
  split
  · split
    · simp [h1]
    · simp [h2, h3]
  · rfl

/-- Token-wise predicates over the compilation segment. -/
lemma all_compileSeg (opts : CargoOptions) (p : String → Bool)
    (h1 : p "--no-default-features" = true) (h2 : p "--target" = true)
    (h3 : p (strVal opts.target) = true) (h4 : p "--release" = true)
    (h5 : p "--target-dir" = true) (h6 : p (strVal opts.targetDir) = true) :
    (compileSeg opts).all p = true := by
  unfold compileSeg
  simp only [List.all_append, Bool.and_eq_true]
  refine ⟨⟨⟨?_, ?_⟩, ?_⟩, ?_⟩ <;> split <;> simp [h1, h2, h3, h4, h5, h6]

/-- Token-wise predicates over the display / manifest segment. -/
lemma all_displaySeg (opts : CargoOptions) (p : String → Bool)
    (h1 : p "-v" = true) (h2 : p "-vv" = true) (h3 : p "-q" = true)
    (h4 : p "--message-format" = true) (h5 : p (strVal opts.messageFormat) = true)
    (h6 : p "--locked" = true) (h7 : p "--frozen" = true) (h8 : p "--offline" = true) :
    (displaySeg opts).all p = true := by
  unfold displaySeg
  simp only [List.all_append, Bool.and_eq_true]
  refine ⟨⟨⟨⟨⟨⟨?_, ?_⟩, ?_⟩, ?_⟩, ?_⟩, ?_⟩, ?_⟩ <;> split <;>
    simp [h1, h2, h3, h4, h5, h6, h7, h8]

/-- The branch condition of the selection flag, as a standalone predicate:
target `build` and declared project type `application`. -/
def binSelection (ctx : ExecutorContext) : Bool :=
  decide (ctx.targetName = some "build") &&
    match List.lookup (strVal ctx.projectName) ctx.workspace.projects with
    | none => false
    | some cfg => decide (cfg.projectType = some "application")

/-- A successful branch evaluation agrees with `binSelection`. -/
lemma resolveBin_eq_binSelection {ctx : ExecutorContext} {isBin : Bool}
    (h : resolveBin ctx = Except.ok isBin) : isBin = binSelection ctx := by
  unfold resolveBin at h
  unfold binSelection
  split at h
  · rename_i ht
    cases hl : List.lookup (strVal ctx.projectName) ctx.workspace.projects with
    | none => rw [hl] at h; simp at h
    | some cfg => rw [hl] at h; simp only [Except.ok.injEq] at h; simp [← h, ht]
  · rename_i ht
    simp only [Except.ok.injEq] at h
    simp [← h, ht]

/-! ### Claim theorems -/

/-- C6: for every options record and every context whose package name is
absent or empty, `parseCargoArgs` raises the fatal input error (the thrown
`Error` with the expected-project-name message) and returns no tokens at
all: the error value carries no partial vector. -/
theorem parseCargoArgs_missing_name_fatal (opts : CargoOptions) (ctx : ExecutorContext)
    (h : ctx.projectName = none ∨ ctx.projectName = some "") :
    parseCargoArgs opts ctx = Except.error "Expected project name to be non-null" := by
  unfold parseCargoArgs
  rcases h with h | h <;> rw [h] <;> rfl

/-- Witness for C6 at the empty context. -/
theorem parseCargoArgs_missing_name_fatal_witness :
    parseCargoArgs {} {} = Except.error "Expected project name to be non-null" :=
  parseCargoArgs_missing_name_fatal {} {} (Or.inl rfl)

/-- C2 counterexample: a signal-terminated process closes with a `null` exit
code, and `runCargo` then resolves successfully instead of producing the
failure the claim requires for signal-based termination. -/
theorem runCargo_signal_counterexample :
    runCargo (ProcessEvent.close none) = RunResult.resolved := rfl

/-- C2 (amended): `runCargo` resolves successfully exactly on a zero exit
code or a signal-based termination (`null` code); any non-zero exit code
yields a descriptive failure carrying the exit code; a spawn-level failure
yields a distinct failure without an exit code. -/
theorem runCargo_settlement (c : Int) (hc : c ≠ 0) (msg : String) (ev : ProcessEvent) :
    runCargo (ProcessEvent.close (some 0)) = RunResult.resolved ∧
    runCargo (ProcessEvent.close none) = RunResult.resolved ∧
    runCargo (ProcessEvent.close (some c)) =
      RunResult.rejectedExit c ("Cargo failed with exit code " ++ toString c) ∧
    runCargo (ProcessEvent.spawnError msg) = RunResult.rejectedSpawn msg ∧
    (runCargo ev = RunResult.resolved ↔
      ev = ProcessEvent.close (some 0) ∨ ev = ProcessEvent.close none) := by
  refine ⟨rfl, rfl, by simp [runCargo, hc], rfl, ?_⟩
  constructor
  · intro hev
    cases ev with
    | spawnError m => simp [runCargo] at hev
    | close code =>
      cases code with
      | none => exact Or.inr rfl
      | some cc =>
        by_cases h : cc = 0
        · subst h; exact Or.inl rfl
        · simp [runCargo, h] at hev
  · rintro (h | h) <;> subst h <;> rfl

/-- Witness for C2 at exit code 101 and a concrete spawn error. -/
theorem runCargo_settlement_witness :
    runCargo (ProcessEvent.close (some 0)) = RunResult.resolved ∧
    runCargo (ProcessEvent.close none) = RunResult.resolved ∧
    runCargo (ProcessEvent.close (some 101)) =
      RunResult.rejectedExit 101 ("Cargo failed with exit code " ++ toString (101 : Int)) ∧
    runCargo (ProcessEvent.spawnError "spawn cargo ENOENT") =
      RunResult.rejectedSpawn "spawn cargo ENOENT" ∧
    (runCargo (ProcessEvent.close (some 101)) = RunResult.resolved ↔
      ProcessEvent.close (some 101) = ProcessEvent.close (some 0) ∨
      ProcessEvent.close (some 101) = ProcessEvent.close none) :=
  runCargo_settlement 101 (by decide) "spawn cargo ENOENT" (ProcessEvent.close (some 101))

/-- C8: `getCargoCommandFromExecutor` maps `build` to `["build"]`, `test` to
`["test"]`, `lint` to `["clippy"]`, `run` to `["run"]`, `nextest` to
`["nextest", "run"]`, and any executor whose label (the substring after the
last colon) is none of these to the empty sequence, without error. -/
theorem getCargoCommandFromExecutor_table (e : String)
    (h : lastSegmentStr e ∉ (["build", "test", "lint", "run", "nextest"] : List String)) :
    getCargoCommandFromExecutor "build" = ["build"] ∧
    getCargoCommandFromExecutor "test" = ["test"] ∧
    getCargoCommandFromExecutor "lint" = ["clippy"] ∧
    getCargoCommandFromExecutor "run" = ["run"] ∧
    getCargoCommandFromExecutor "nextest" = ["nextest", "run"] ∧
    getCargoCommandFromExecutor e = [] := by
  simp only [List.mem_cons, List.not_mem_nil, or_false, not_or] at h
  obtain ⟨h1, h2, h3, h4, h5⟩ := h
  refine ⟨by decide, by decide, by decide, by decide, by decide, ?_⟩
  unfold getCargoCommandFromExecutor
  rw [if_neg h1, if_neg h2, if_neg h3, if_neg h4, if_neg h5]

/-- Witness for C8 at an unrecognized executor label. -/
theorem getCargoCommandFromExecutor_table_witness :
    getCargoCommandFromExecutor "build" = ["build"] ∧
    getCargoCommandFromExecutor "test" = ["test"] ∧
    getCargoCommandFromExecutor "lint" = ["clippy"] ∧
    getCargoCommandFromExecutor "run" = ["run"] ∧
    getCargoCommandFromExecutor "nextest" = ["nextest", "run"] ∧
    getCargoCommandFromExecutor "@myorg/nx-rust:publish" = [] :=
  getCargoCommandFromExecutor_table "@myorg/nx-rust:publish" (by decide)

/-- C10: when the parsed manifest has a `workspace` table with no `members`
array, the mutation step appends nothing and raises no error, and
`updateWorkspaceMembers` still re-serializes the unchanged document and
writes it back. -/
theorem updateWorkspaceMembers_absent_members_noop
    (parseToml : String → CargoToml) (stringifyToml : CargoToml → String)
    (content projectRoot : String) (w : WorkspaceTable)
    (hw : (parseToml content).workspace = some w) (hm : w.members = none) :
    updateWorkspaceMembersDoc (parseToml content) projectRoot =
      Except.ok (parseToml content) ∧
    updateWorkspaceMembers parseToml stringifyToml content projectRoot =
      Except.ok (stringifyToml (parseToml content)) := by
  have hdoc : updateWorkspaceMembersDoc (parseToml content) projectRoot =
      Except.ok (parseToml content) := by
    unfold updateWorkspaceMembersDoc
    rw [hw]
    dsimp only
    rw [hm]
  exact ⟨hdoc, by unfold updateWorkspaceMembers; rw [hdoc]⟩

/-- Witness for C10 at a concrete document with a memberless workspace table. -/
theorem updateWorkspaceMembers_absent_members_noop_witness :
    updateWorkspaceMembersDoc ⟨some ⟨none, [("resolver", "2")]⟩, [("profile", "release")]⟩
      "apps/demo" =
      Except.ok ⟨some ⟨none, [("resolver", "2")]⟩, [("profile", "release")]⟩ ∧
    updateWorkspaceMembers
      (fun _ => ⟨some ⟨none, [("resolver", "2")]⟩, [("profile", "release")]⟩)
      (fun _ => "serialized") "workspace-manifest" "apps/demo" =
      Except.ok "serialized" :=
  updateWorkspaceMembers_absent_members_noop
    (fun _ => ⟨some ⟨none, [("resolver", "2")]⟩, [("profile", "release")]⟩)
    (fun _ => "serialized") "workspace-manifest" "apps/demo" ⟨none, [("resolver", "2")]⟩
    rfl rfl

/-- `split` never returns an empty array. -/
lemma splitOnChar_ne_nil (sep : Char) (l : List Char) : splitOnChar sep l ≠ [] := by
  induction l with
  | nil => simp [splitOnChar]
  | cons c cs ih =>
    by_cases h : c = sep
    · simp [splitOnChar, h]
    · simp only [splitOnChar, h, if_false]
      cases hr : splitOnChar sep cs with
      | nil => exact absurd hr ih
      | cons a b => simp [hr]

/-- Unfolding `splitOnChar` at a separator character. -/
lemma splitOnChar_cons_self (sep : Char) (cs : List Char) :
    splitOnChar sep (sep :: cs) = [] :: splitOnChar sep cs := by
  simp [splitOnChar]

/-- Unfolding `splitOnChar` at a non-separator character. -/
lemma splitOnChar_cons_ne (sep c : Char) (cs : List Char) (h : c ≠ sep)
    (a : List Char) (b : List (List Char)) (hr : splitOnChar sep cs = a :: b) :
    splitOnChar sep (c :: cs) = (c :: a) :: b := by
  simp [splitOnChar, h, hr]

/-- Splitting distributes over an explicit separator between two halves. -/
lemma splitOnChar_append (sep : Char) (xs ys : List Char) :
    splitOnChar sep (xs ++ sep :: ys) = splitOnChar sep xs ++ splitOnChar sep ys := by
  induction xs with
  | nil =>
    rw [List.nil_append, splitOnChar_cons_self]
    rfl
  | cons x xs ih =>
    by_cases h : x = sep
    · subst h
      rw [List.cons_append, splitOnChar_cons_self, splitOnChar_cons_self, ih]
      rfl
    · cases hr : splitOnChar sep xs with
      | nil => exact absurd hr (splitOnChar_ne_nil sep xs)
      | cons a b =>
        have hr2 : splitOnChar sep (xs ++ sep :: ys) = a :: (b ++ splitOnChar sep ys) := by
          rw [ih, hr]
          rfl
        rw [List.cons_append, splitOnChar_cons_ne sep x _ h _ _ hr2,
          splitOnChar_cons_ne sep x _ h _ _ hr]
        rfl

/-- C9: `getCargoCommandFromExecutor` depends only on the substring after
the last colon: prefixing any executor label with `p ++ ":"` does not change
the resolved subcommand sequence. -/
theorem getCargoCommandFromExecutor_last_segment (p a : String) :
    getCargoCommandFromExecutor (p ++ ":" ++ a) = getCargoCommandFromExecutor a := by
  have hdata : (p ++ ":" ++ a).data = p.data ++ ':' :: a.data := by
    rw [String.data_append, String.data_append, List.append_assoc]
    rfl
  have hseg : lastSegmentStr (p ++ ":" ++ a) = lastSegmentStr a := by
    unfold lastSegmentStr
    rw [hdata, splitOnChar_append, List.getLastD_eq_getLast?,
      List.getLastD_eq_getLast?,
      List.getLast?_append_of_ne_nil _ (splitOnChar_ne_nil ':' a.data)]
  unfold getCargoCommandFromExecutor
  rw [hseg]

/-- The tokens from the selection flag through the compilation segment are
free of `+`-prefixed tokens whenever the injected values are. -/
lemma all_notPlus_core (opts : CargoOptions) (isBin : Bool) (n : String)
    (hn : plusPrefixed n = false)
    (hf : plusPrefixed (strVal opts.features) = false)
    (htg : plusPrefixed (strVal opts.target) = false)
    (htd : plusPrefixed (strVal opts.targetDir) = false) :
    (selectionFlag isBin :: n :: (featureSeg opts ++ compileSeg opts)).all
      (fun tk => ! plusPrefixed tk) = true := by
  simp only [List.all_cons, List.all_append, Bool.and_eq_true]
  refine ⟨?_, ?_, ?_, ?_⟩
  · rw [plusPrefixed_selectionFlag]
    rfl
  · simp [hn]
  · exact all_featureSeg opts _ (by decide) (by decide) (by simp [hf])
  · exact all_compileSeg opts _ (by decide) (by decide) (by simp [htg]) (by decide)
      (by decide) (by simp [htd])

/-- The unstable-options tokens are free of `+`-prefixed tokens whenever the
`outDir` value is. -/
lemma all_notPlus_outDirArgs (opts : CargoOptions)
    (hod : plusPrefixed (strVal opts.outDir) = false) :
    (["-Z", "unstable-options", "--out-dir", strVal opts.outDir]).all
      (fun tk => ! plusPrefixed tk) = true := by
  simp only [List.all_cons, List.all_nil, Bool.and_eq_true]
  exact ⟨by decide, by decide, by decide, by simp [hod], trivial⟩

/-- The display / manifest tokens are free of `+`-prefixed tokens whenever
the `messageFormat` value is. -/
lemma all_notPlus_displaySeg (opts : CargoOptions)
    (hmf : plusPrefixed (strVal opts.messageFormat) = false) :
    (displaySeg opts).all (fun tk => ! plusPrefixed tk) = true :=
  all_displaySeg opts _ (by decide) (by decide) (by decide) (by decide)
    (by simp [hmf]) (by decide) (by decide) (by decide)

/-- C3 counterexample: with neither `toolchain` nor `outDir` set but a
feature value that itself begins with `+`, the returned vector does contain
a `+`-prefixed token, contradicting the claim quantified over arbitrary
option fields. -/
theorem parseCargoArgs_plus_injection_counterexample :
    parseCargoArgs
      ⟨none, some "+f", false, none, false, none, none, false, false, false,
        none, false, false, false⟩
      ⟨some "app1", some "test", ⟨[]⟩, ""⟩ =
      Except.ok ⟨["-p", "app1", "--features", "+f"], []⟩ ∧
    "+f" ∈ ["-p", "app1", "--features", "+f"] ∧ plusPrefixed "+f" = true :=
  ⟨rfl, by decide, by decide⟩

/-- C3 (amended): with neither `toolchain` nor `outDir` set, and no
string-valued option field or package name itself beginning with `+`, no
token of the returned vector starts with `+`. -/
theorem parseCargoArgs_no_plus_token (opts : CargoOptions) (ctx : ExecutorContext)
    (r : ParseResult)
    (ht : jsTruthy opts.toolchain = false) (ho : jsTruthy opts.outDir = false)
    (hn : plusPrefixed (strVal ctx.projectName) = false)
    (hf : plusPrefixed (strVal opts.features) = false)
    (htg : plusPrefixed (strVal opts.target) = false)
    (htd : plusPrefixed (strVal opts.targetDir) = false)
    (hmf : plusPrefixed (strVal opts.messageFormat) = false)
    (hr : parseCargoArgs opts ctx = Except.ok r) :
    r.args.all (fun tk => ! plusPrefixed tk) = true := by
  obtain ⟨-, isBin, -, hargs, -⟩ := parseCargoArgs_ok hr
  rw [toolchainSeg_of_falsy ht, List.nil_append, outDirStep_falsy ho] at hargs
  dsimp only at hargs
  rw [hargs]
  simp only [List.all_append, Bool.and_eq_true]
  exact ⟨all_notPlus_core opts isBin _ hn hf htg htd, all_notPlus_displaySeg opts hmf⟩

/-- Witness for C3 at an options record with no fields set. -/
theorem parseCargoArgs_no_plus_token_witness :
    (["-p", "app1"] : List String).all (fun tk => ! plusPrefixed tk) = true :=
  parseCargoArgs_no_plus_token {} ⟨some "app1", some "test", ⟨[]⟩, ""⟩
    ⟨["-p", "app1"], []⟩ rfl rfl (by decide) (by decide) (by decide) (by decide)
    (by decide) rfl

/-- C4 counterexample: with `outDir` set, `toolchain: "stable"` and a
feature value beginning with `+`, the returned vector contains a second
`+`-prefixed token besides the leading `+nightly`, contradicting the claim
quantified over arbitrary option fields. -/
theorem parseCargoArgs_outDir_stable_counterexample :
    parseCargoArgs
      ⟨some "stable", some "+f", false, none, false, none, some "dist", false,
        false, false, none, false, false, false⟩
      ⟨some "app1", some "test", ⟨[]⟩, ""⟩ =
      Except.ok ⟨["+nightly", "-p", "app1", "--features", "+f", "-Z",
        "unstable-options", "--out-dir", "dist"], [outDirWarning "stable"]⟩ ∧
    "+f" ∈ ["+nightly", "-p", "app1", "--features", "+f", "-Z",
      "unstable-options", "--out-dir", "dist"] ∧
    plusPrefixed "+f" = true ∧ "+f" ≠ "+nightly" :=
  ⟨rfl, by decide, by decide, by decide⟩

/-- C4 (amended): with `outDir` set, `toolchain: "stable"`, and no option
value or package name beginning with `+`, the returned vector starts with
`+nightly`, its remaining tokens contain no `+`-prefixed token (so the
stable token is replaced, not kept alongside), and exactly one warning is
emitted during the call. -/
theorem parseCargoArgs_outDir_stable_override (opts : CargoOptions) (ctx : ExecutorContext)
    (r : ParseResult)
    (ht : opts.toolchain = some "stable")
    (ho : jsTruthy opts.outDir = true)
    (hn : plusPrefixed (strVal ctx.projectName) = false)
    (hf : plusPrefixed (strVal opts.features) = false)
    (htg : plusPrefixed (strVal opts.target) = false)
    (htd : plusPrefixed (strVal opts.targetDir) = false)
    (hmf : plusPrefixed (strVal opts.messageFormat) = false)
    (hod : plusPrefixed (strVal opts.outDir) = false)
    (hr : parseCargoArgs opts ctx = Except.ok r) :
    r.args.headD "" = "+nightly" ∧
    r.args.tail.all (fun tk => ! plusPrefixed tk) = true ∧
    r.warnings.length = 1 := by
  obtain ⟨-, isBin, -, hargs, hwarn⟩ := parseCargoArgs_ok hr
  have htseg : toolchainSeg opts = ["+stable"] := by
    unfold toolchainSeg
    rw [ht]
    decide
  rw [htseg] at hargs hwarn
  rw [List.cons_append, List.nil_append,
    outDirStep_replace ho "+stable" _ (by decide) (by decide)] at hargs hwarn
  dsimp only at hargs hwarn
  have hargs' : r.args = "+nightly" ::
      (((selectionFlag isBin :: strVal ctx.projectName ::
        (featureSeg opts ++ compileSeg opts)) ++
        ["-Z", "unstable-options", "--out-dir", strVal opts.outDir]) ++
        displaySeg opts) := by
    rw [hargs]
    rfl
  refine ⟨?_, ?_, ?_⟩
  · rw [hargs']
    rfl
  · rw [hargs', List.tail_cons]
    simp only [List.all_append, Bool.and_eq_true]
    exact ⟨⟨all_notPlus_core opts isBin _ hn hf htg htd,
      all_notPlus_outDirArgs opts hod⟩, all_notPlus_displaySeg opts hmf⟩
  · rw [hwarn]
    rfl

/-- Witness for C4 at `toolchain: "stable"`, `outDir: "dist"`. -/
theorem parseCargoArgs_outDir_stable_override_witness :
    (["+nightly", "-p", "app1", "-Z", "unstable-options", "--out-dir", "dist"] :
      List String).headD "" = "+nightly" ∧
    (["-p", "app1", "-Z", "unstable-options", "--out-dir", "dist"] :
      List String).all (fun tk => ! plusPrefixed tk) = true ∧
    ([outDirWarning "stable"]).length = 1 :=
  parseCargoArgs_outDir_stable_override
    ⟨some "stable", none, false, none, false, none, some "dist", false, false,
      false, none, false, false, false⟩
    ⟨some "app1", some "test", ⟨[]⟩, ""⟩
    ⟨["+nightly", "-p", "app1", "-Z", "unstable-options", "--out-dir", "dist"],
      [outDirWarning "stable"]⟩
    rfl (by decide) (by decide) (by decide) (by decide) (by decide) (by decide)
    (by decide) rfl

/-- C5: with `outDir` set and no toolchain set, `parseCargoArgs` returns a
vector whose first token is `+nightly` and which contains the contiguous
sequence `-Z`, `unstable-options`, `--out-dir` followed by the `outDir`
value. -/
theorem parseCargoArgs_outDir_nightly_front (opts : CargoOptions) (ctx : ExecutorContext)
    (r : ParseResult) (d : String) (hd : opts.outDir = some d) (hd0 : d ≠ "")
    (ht : jsTruthy opts.toolchain = false)
    (hr : parseCargoArgs opts ctx = Except.ok r) :
    r.args.headD "" = "+nightly" ∧
    ["-Z", "unstable-options", "--out-dir", d] <:+: r.args := by
  obtain ⟨-, isBin, -, hargs, -⟩ := parseCargoArgs_ok hr
  have ho : jsTruthy opts.outDir = true := by
    rw [hd]
    simpa [jsTruthy] using hd0
  have hv : strVal opts.outDir = d := by
    rw [hd]
    rfl
  rw [toolchainSeg_of_falsy ht, List.nil_append,
    outDirStep_unshift ho _ _ (selectionFlag_ne_nightly isBin)
      (plusPrefixed_selectionFlag isBin), hv] at hargs
  dsimp only at hargs
  constructor
  · rw [hargs]
    rfl
  · rw [hargs]
    exact ⟨"+nightly" :: selectionFlag isBin :: strVal ctx.projectName ::
      (featureSeg opts ++ compileSeg opts), displaySeg opts, by simp⟩

/-- Witness for C5 at `outDir: "dist"` with no toolchain. -/
theorem parseCargoArgs_outDir_nightly_front_witness :
    (["+nightly", "-p", "app1", "-Z", "unstable-options", "--out-dir", "dist"] :
      List String).headD "" = "+nightly" ∧
    ["-Z", "unstable-options", "--out-dir", "dist"] <:+:
      ["+nightly", "-p", "app1", "-Z", "unstable-options", "--out-dir", "dist"] :=
  parseCargoArgs_outDir_nightly_front
    ⟨none, none, false, none, false, none, some "dist", false, false, false,
      none, false, false, false⟩
    ⟨some "app1", some "test", ⟨[]⟩, ""⟩
    ⟨["+nightly", "-p", "app1", "-Z", "unstable-options", "--out-dir", "dist"], []⟩
    "dist" rfl (by decide) rfl rfl

/-- Every toolchain token is `+`-prefixed. -/
lemma mem_toolchainSeg_plus (opts : CargoOptions) :
    ∀ tk ∈ toolchainSeg opts, plusPrefixed tk = true := by
  intro tk htk
  unfold toolchainSeg at htk
  split at htk
  · simp only [List.mem_singleton] at htk
    subst htk
    exact plusPrefixed_plus_append _
  · simp at htk

/-- The toolchain segment when the toolchain field is truthy. -/
lemma toolchainSeg_of_truthy {opts : CargoOptions} (h : jsTruthy opts.toolchain = true) :
    toolchainSeg opts = ["+" ++ strVal opts.toolchain] := by
  unfold toolchainSeg
  rw [h]
  rfl

/-- Decomposition of the `outDir` block on the vector built so far: writing
the accumulated vector as toolchain tokens followed by a non-`+` token `x`
and a remainder `l`, the result is some `+`-prefixed prefix, then `x`, then
`l`, then (possibly) the unstable-options tokens. -/
lemma outDirStep_decompose (opts : CargoOptions) (x : String) (l : List String)
    (hx1 : x ≠ "+nightly") (hx2 : plusPrefixed x = false) :
    ∃ pre suf,
      (outDirStep opts (toolchainSeg opts ++ x :: l)).1 = pre ++ x :: (l ++ suf) ∧
      (∀ tk ∈ pre, plusPrefixed tk = true) ∧
      (suf = [] ∨ suf = ["-Z", "unstable-options", "--out-dir", strVal opts.outDir]) := by
  by_cases ho : jsTruthy opts.outDir = true
  · by_cases htt : jsTruthy opts.toolchain = true
    · rw [toolchainSeg_of_truthy htt]
      by_cases htn : "+" ++ strVal opts.toolchain = "+nightly"
      · rw [List.cons_append, List.nil_append, htn, outDirStep_nightly ho (x :: l)]
        refine ⟨["+nightly"], ["-Z", "unstable-options", "--out-dir", strVal opts.outDir],
          by simp, ?_, Or.inr rfl⟩
        intro tk htk
        simp only [List.mem_singleton] at htk
        subst htk
        decide
      · rw [List.cons_append, List.nil_append,
          outDirStep_replace ho _ (x :: l) htn (plusPrefixed_plus_append _)]
        refine ⟨["+nightly"], ["-Z", "unstable-options", "--out-dir", strVal opts.outDir],
          by simp, ?_, Or.inr rfl⟩
        intro tk htk
        simp only [List.mem_singleton] at htk
        subst htk
        decide
    · have hts : toolchainSeg opts = [] := toolchainSeg_of_falsy (by simpa using htt)
      rw [hts, List.nil_append, outDirStep_unshift ho x l hx1 hx2]
      refine ⟨["+nightly"], ["-Z", "unstable-options", "--out-dir", strVal opts.outDir],
        by simp, ?_, Or.inr rfl⟩
      intro tk htk
      simp only [List.mem_singleton] at htk
      subst htk
      decide
  · have ho' : jsTruthy opts.outDir = false := by simpa using ho
    rw [outDirStep_falsy ho']
    exact ⟨toolchainSeg opts, [], by simp, mem_toolchainSeg_plus opts, Or.inl rfl⟩

/-- A `+`-prefixed token never equals the features flag. -/
lemma plusPrefixed_bne_features {tk : String} (h : plusPrefixed tk = true) :
    (tk != "--features") = true := by
  rw [bne_iff_ne]
  intro he
  subst he
  exact absurd h (by decide)

/-- C7 counterexample: with `features: "all"` and a `target` value equal to
the literal `--features`, the returned vector does contain a `--features`
token, contradicting the claim quantified over arbitrary option fields. -/
theorem parseCargoArgs_features_injection_counterexample :
    parseCargoArgs
      ⟨none, some "all", false, some "--features", false, none, none, false,
        false, false, none, false, false, false⟩
      ⟨some "app1", some "test", ⟨[]⟩, ""⟩ =
      Except.ok ⟨["-p", "app1", "--all-features", "--target", "--features"], []⟩ ∧
    "--features" ∈ ["-p", "app1", "--all-features", "--target", "--features"] :=
  ⟨rfl, by decide⟩

/-- C7 (amended): with a truthy `features` option and no other option value
or the package name equal to the literal `--features`: if `features` is the
sentinel `all`, the returned vector contains `--all-features` and no
`--features` token; otherwise it contains `--features` immediately followed
by the literal feature value. -/
theorem parseCargoArgs_features_selection (opts : CargoOptions) (ctx : ExecutorContext)
    (r : ParseResult)
    (hfe : jsTruthy opts.features = true)
    (hn : strVal ctx.projectName ≠ "--features")
    (htg : strVal opts.target ≠ "--features")
    (htd : strVal opts.targetDir ≠ "--features")
    (hmf : strVal opts.messageFormat ≠ "--features")
    (hod : strVal opts.outDir ≠ "--features")
    (hr : parseCargoArgs opts ctx = Except.ok r) :
    if opts.features = some "all" then
      "--all-features" ∈ r.args ∧ r.args.all (fun tk => tk != "--features") = true
    else ["--features", strVal opts.features] <:+: r.args := by
  obtain ⟨-, isBin, -, hargs, -⟩ := parseCargoArgs_ok hr
  obtain ⟨pre, suf, hdec, hpre, hsuf⟩ := outDirStep_decompose opts (selectionFlag isBin)
    (strVal ctx.projectName :: (featureSeg opts ++ compileSeg opts))
    (selectionFlag_ne_nightly isBin) (plusPrefixed_selectionFlag isBin)
  rw [hdec] at hargs
  by_cases hall : opts.features = some "all"
  · rw [if_pos hall]
    have hfseg : featureSeg opts = ["--all-features"] := by
      unfold featureSeg
      rw [hall]
      decide
    rw [hfseg] at hargs
    constructor
    · rw [hargs]
      simp
    · rw [hargs]
      have hcs : (compileSeg opts).all (fun tk => tk != "--features") = true :=
        all_compileSeg opts _ (by decide) (by decide) (by simp [bne_iff_ne, htg])
          (by decide) (by decide) (by simp [bne_iff_ne, htd])
      have hds : (displaySeg opts).all (fun tk => tk != "--features") = true :=
        all_displaySeg opts _ (by decide) (by decide) (by decide) (by decide)
          (by simp [bne_iff_ne, hmf]) (by decide) (by decide) (by decide)
      have hsufall : suf.all (fun tk => tk != "--features") = true := by
        rcases hsuf with h | h <;> subst h
        · rfl
        · simp only [List.all_cons, List.all_nil, Bool.and_eq_true]
          exact ⟨by decide, by decide, by decide, by simp [bne_iff_ne, hod], trivial⟩
      have hprall : pre.all (fun tk => tk != "--features") = true :=
        List.all_eq_true.mpr fun tk h => plusPrefixed_bne_features (hpre tk h)
      simp only [List.all_append, List.all_cons, List.all_nil, Bool.and_eq_true,
        Bool.and_true, and_assoc, and_true]
      exact ⟨hprall, by cases isBin <;> decide, by simp [bne_iff_ne, hn],
        by decide, hcs, hsufall, hds⟩
  · rw [if_neg hall]
    have hfseg : featureSeg opts = ["--features", strVal opts.features] := by
      unfold featureSeg
      rw [hfe]
      rw [if_pos rfl, if_neg hall]
    rw [hfseg] at hargs
    rw [hargs]
    refine ⟨pre ++ [selectionFlag isBin, strVal ctx.projectName],
      (compileSeg opts ++ suf) ++ displaySeg opts, ?_⟩
    simp

/-- Witness for C7 at `features: "all"`. -/
theorem parseCargoArgs_features_selection_witness :
    if (some "all" : Option String) = some "all" then
      "--all-features" ∈ (["-p", "app1", "--all-features"] : List String) ∧
      (["-p", "app1", "--all-features"] : List String).all
        (fun tk => tk != "--features") = true
    else ["--features", strVal (some "all")] <:+:
      (["-p", "app1", "--all-features"] : List String) :=
  parseCargoArgs_features_selection
    ⟨none, some "all", false, none, false, none, none, false, false, false,
      none, false, false, false⟩
    ⟨some "app1", some "test", ⟨[]⟩, ""⟩
    ⟨["-p", "app1", "--all-features"], []⟩
    (by decide) (by decide) (by decide) (by decide) (by decide) (by decide) rfl

/-- The branch predicate `binSelection` holds exactly when the target is
`build` and the project is declared with the `application` project type. -/
lemma binSelection_iff (ctx : ExecutorContext) (n : String)
    (hn : ctx.projectName = some n) :
    binSelection ctx = true ↔ ctx.targetName = some "build" ∧
      (List.lookup n ctx.workspace.projects).map ProjectConfiguration.projectType =
        some (some "application") := by
  have hsv : strVal ctx.projectName = n := by
    rw [hn]
    rfl
  unfold binSelection
  rw [hsv]
  cases hl : List.lookup n ctx.workspace.projects with
  | none => simp [hl]
  | some cfg => simp [hl]

/-- C1 counterexample: for a build action against an application-kind
package, the returned vector is `--bin` immediately followed by the package
name token, so the package-name token is emitted in the binary-selection
branch as well, contradicting the claim. -/
theorem parseCargoArgs_bin_branch_counterexample :
    parseCargoArgs {}
      ⟨some "app1", some "build", ⟨[("app1", ⟨some "application"⟩)]⟩, ""⟩ =
      Except.ok ⟨["--bin", "app1"], []⟩ ∧
    "app1" ∈ ["--bin", "app1"] :=
  ⟨rfl, by decide⟩

/-- C1 (amended): on every successful call, the selection flag is
immediately followed by the package name token in both branches: `--bin`
followed by the name when the target is `build` and the project type is
`application` (as characterized by `binSelection`), and `-p` followed by
the name otherwise. -/
theorem parseCargoArgs_selection_flag_followed_by_name (opts : CargoOptions)
    (ctx : ExecutorContext) (r : ParseResult) (n : String)
    (hn : ctx.projectName = some n)
    (hr : parseCargoArgs opts ctx = Except.ok r) :
    [selectionFlag (binSelection ctx), n] <:+: r.args ∧
    (binSelection ctx = true ↔ ctx.targetName = some "build" ∧
      (List.lookup n ctx.workspace.projects).map ProjectConfiguration.projectType =
        some (some "application")) := by
  obtain ⟨-, isBin, hbin, hargs, -⟩ := parseCargoArgs_ok hr
  have hib : isBin = binSelection ctx := resolveBin_eq_binSelection hbin
  subst hib
  have hsv : strVal ctx.projectName = n := by
    rw [hn]
    rfl
  obtain ⟨pre, suf, hdec, -, -⟩ := outDirStep_decompose opts
    (selectionFlag (binSelection ctx))
    (strVal ctx.projectName :: (featureSeg opts ++ compileSeg opts))
    (selectionFlag_ne_nightly _) (plusPrefixed_selectionFlag _)
  rw [hdec, hsv] at hargs
  refine ⟨?_, binSelection_iff ctx n hn⟩
  rw [hargs]
  exact ⟨pre, ((featureSeg opts ++ compileSeg opts) ++ suf) ++ displaySeg opts, by simp⟩

/-- Witness for C1 at a build action against an application-kind project. -/
theorem parseCargoArgs_selection_flag_followed_by_name_witness :
    [selectionFlag (binSelection ⟨some "app1", some "build",
      ⟨[("app1", ⟨some "application"⟩)]⟩, ""⟩), "app1"] <:+:
      (["--bin", "app1"] : List String) ∧
    (binSelection ⟨some "app1", some "build",
        ⟨[("app1", ⟨some "application"⟩)]⟩, ""⟩ = true ↔
      (some "build" : Option String) = some "build" ∧
      (List.lookup "app1"
        [("app1", (⟨some "application"⟩ : ProjectConfiguration))]).map
        ProjectConfiguration.projectType = some (some "application")) :=
  parseCargoArgs_selection_flag_followed_by_name {}
    ⟨some "app1", some "build", ⟨[("app1", ⟨some "application"⟩)]⟩, ""⟩
    ⟨["--bin", "app1"], []⟩ "app1" rfl rfl
